import Mathlib

/-!
Verification development for the Data-Alchemist validation engine
(`src/app/page.tsx`): a shallow embedding of the multi-dataset validation
pipeline (`triggerFullValidation`, `validateSingleDataset`,
`validateClientTaskRelationship`, `validateTaskWorkerRelationship`,
`validateOverloadedWorkers`, `validatePhaseSlotSaturation`,
`parsePreferredPhases`, `validateMaxConcurrencyFeasibility`) together with
theorems settling the specification claims about it.

Modelling conventions:
* Rows come from `Papa.parse(..., { header: true })`, i.e. plain JavaScript
  objects whose own properties are the CSV column names and whose values are
  strings.  A row is modelled as an association list `List (String × String)`;
  an absent key models an `undefined` property.
* JavaScript numbers appearing in the engine are modelled as `Option Int`:
  `none` models `NaN`, `some n` an integer value.  The cell grammars involved
  (phase numbers, durations, loads) are integral, so non-integral numeric
  literals (e.g. `"1.5"`, hex or exponent forms) are outside the modelled
  grammar; on all integral-literal cells the model agrees with JavaScript
  `Number`/`parseInt` coercion.
* `String.prototype.trim` is modelled on the ASCII whitespace subset.
-/

namespace DataAlchemist

/-- ASCII whitespace, the fragment of the JavaScript `\s`/trim character
class relevant to the modelled cell grammar. -/
def jsWsChar (c : Char) : Bool :=
  c = ' ' || c = '\t' || c = '\n' || c = '\r' || c = '\x0b' || c = '\x0c'

/-- Model of `String.prototype.trim` (ASCII whitespace subset). -/
def jsTrim (s : String) : String :=
  ⟨((s.data.dropWhile jsWsChar).reverse.dropWhile jsWsChar).reverse⟩

/-- Split a character list at every occurrence of `sep`; like JavaScript
`String.prototype.split` with a one-character separator, the result is
never empty and `"".split(sep) = [""]`. -/
def splitCharList (sep : Char) : List Char → List (List Char)
  | [] => [[]]
  | c :: cs =>
    let r := splitCharList sep cs
    if c = sep then [] :: r
    else
      match r with
      | h :: t => (c :: h) :: t
      | [] => [[c]]

/-- Model of `s.split(sep)` for a one-character separator. -/
def jsSplit (sep : Char) (s : String) : List String :=
  (splitCharList sep s.data).map fun l => ⟨l⟩

/-- Numeric value of a non-empty digit list. -/
def digitsVal (l : List Char) : Nat :=
  l.foldl (fun a c => a * 10 + (c.toNat - 48)) 0

/-- Model of the JavaScript `Number` coercion of a string, restricted to the
integral grammar: surrounding whitespace is ignored, the empty (or
all-whitespace) string coerces to `0`, an optionally signed digit string to
its value, anything else to `NaN` (`none`). -/
def jsNumber (s : String) : Option Int :=
  match (jsTrim s).data with
  | [] => some 0
  | '-' :: ds => if ds ≠ [] ∧ ds.all Char.isDigit then some (-(digitsVal ds : Int)) else none
  | '+' :: ds => if ds ≠ [] ∧ ds.all Char.isDigit then some ((digitsVal ds : Int)) else none
  | ds => if ds.all Char.isDigit then some ((digitsVal ds : Int)) else none

/-- Model of JavaScript `parseInt(s)` (radix 10): leading whitespace is
skipped, an optional sign and the longest leading digit run are consumed,
and the result is `NaN` (`none`) when that run is empty. -/
def jsParseInt (s : String) : Option Int :=
  match s.data.dropWhile jsWsChar with
  | '-' :: ds =>
    let p := ds.takeWhile Char.isDigit
    if p = [] then none else some (-(digitsVal p : Int))
  | '+' :: ds =>
    let p := ds.takeWhile Char.isDigit
    if p = [] then none else some ((digitsVal p : Int))
  | ds =>
    let p := ds.takeWhile Char.isDigit
    if p = [] then none else some ((digitsVal p : Int))

/-- Rendering of a modelled JavaScript number by string interpolation:
`NaN` renders as `"NaN"`, integers in decimal. -/
def jsNumToString : Option Int → String
  | none => "NaN"
  | some n => toString n

/-! ### JSON (`JSON.parse`)

The engine uses `JSON.parse` in two places: to check `AttributesJSON`
parseability and to parse a bracketed `PreferredPhases` array.  The value
model `Json` keeps numbers as integers (see the header note on the numeric
grammar); the parser is a fuelled recursive-descent acceptor of the JSON
grammar. -/

inductive Json where
  | null : Json
  | bool (b : Bool) : Json
  | num (n : Int) : Json
  | str (s : String) : Json
  | arr (elems : List Json) : Json
  | obj (fields : List (String × Json)) : Json

/-- JSON insignificant whitespace. -/
def jsonWs (c : Char) : Bool :=
  c = ' ' || c = '\t' || c = '\n' || c = '\r'

def isHexDigit (c : Char) : Bool :=
  c.isDigit || ('a' ≤ c && c ≤ 'f') || ('A' ≤ c && c ≤ 'F')

def hexVal (c : Char) : Nat :=
  if c.isDigit then c.toNat - 48
  else if 'a' ≤ c && c ≤ 'f' then c.toNat - 87
  else c.toNat - 55

/-- Translation of a JSON string escape character. -/
def escChar : Char → Char
  | 'b' => '\x08'
  | 'f' => '\x0c'
  | 'n' => '\n'
  | 'r' => '\r'
  | 't' => '\t'
  | c => c

/-- Body of a JSON string literal, after the opening quote; returns the
decoded string and the input following the closing quote. -/
def jsonStrBody : List Char → List Char → Option (String × List Char)
  | [], _ => none
  | '"' :: rest, acc => some (⟨acc.reverse⟩, rest)
  | '\\' :: 'u' :: a :: b :: c :: d :: rest, acc =>
    if isHexDigit a && isHexDigit b && isHexDigit c && isHexDigit d then
      jsonStrBody rest
        (Char.ofNat (((hexVal a * 16 + hexVal b) * 16 + hexVal c) * 16 + hexVal d) :: acc)
    else none
  | '\\' :: e :: rest, acc =>
    if e = '"' || e = '\\' || e = '/' || e = 'b' || e = 'f' || e = 'n' || e = 'r' || e = 't' then
      jsonStrBody rest (escChar e :: acc)
    else none
  | c :: rest, acc =>
    if c.toNat < 32 then none else jsonStrBody rest (c :: acc)
termination_by l _ => l.length

/-- A JSON number token (integral grammar, see header). -/
def jsonNum : List Char → Option (Int × List Char)
  | '-' :: ds =>
    let p := ds.takeWhile Char.isDigit
    if p = [] then none else some (-(digitsVal p : Int), ds.drop p.length)
  | ds =>
    let p := ds.takeWhile Char.isDigit
    if p = [] then none else some ((digitsVal p : Int), ds.drop p.length)

mutual

/-- Parse one JSON value, leading whitespace allowed. -/
def jsonVal : Nat → List Char → Option (Json × List Char)
  | 0, _ => none
  | fuel + 1, l =>
    match l.dropWhile jsonWs with
    | 'n' :: 'u' :: 'l' :: 'l' :: rest => some (Json.null, rest)
    | 't' :: 'r' :: 'u' :: 'e' :: rest => some (Json.bool true, rest)
    | 'f' :: 'a' :: 'l' :: 's' :: 'e' :: rest => some (Json.bool false, rest)
    | '"' :: rest =>
      match jsonStrBody rest [] with
      | some (s, rest') => some (Json.str s, rest')
      | none => none
    | '[' :: rest =>
      (match (rest.dropWhile jsonWs) with
       | ']' :: rest' => some (Json.arr [], rest')
       | _ => none) <|>
      (match jsonArrItems fuel rest with
       | some (xs, rest') => some (Json.arr xs, rest')
       | none => none)
    | '{' :: rest =>
      (match (rest.dropWhile jsonWs) with
       | '}' :: rest' => some (Json.obj [], rest')
       | _ => none) <|>
      (match jsonObjItems fuel rest with
       | some (kvs, rest') => some (Json.obj kvs, rest')
       | none => none)
    | rest =>
      match jsonNum rest with
      | some (n, rest') => some (Json.num n, rest')
      | none => none

/-- One or more comma-separated JSON array elements followed by `]`. -/
def jsonArrItems : Nat → List Char → Option (List Json × List Char)
  | 0, _ => none
  | fuel + 1, l =>
    match jsonVal fuel l with
    | none => none
    | some (v, rest) =>
      match rest.dropWhile jsonWs with
      | ']' :: rest' => some ([v], rest')
      | ',' :: rest' =>
        match jsonArrItems fuel rest' with
        | some (vs, rest'') => some (v :: vs, rest'')
        | none => none
      | _ => none

/-- One or more comma-separated JSON object members followed by `}`. -/
def jsonObjItems : Nat → List Char → Option (List (String × Json) × List Char)
  | 0, _ => none
  | fuel + 1, l =>
    match (l.dropWhile jsonWs) with
    | '"' :: rest =>
      match jsonStrBody rest [] with
      | none => none
      | some (k, rest') =>
        match rest'.dropWhile jsonWs with
        | ':' :: rest'' =>
          match jsonVal fuel rest'' with
          | none => none
          | some (v, rest3) =>
            match rest3.dropWhile jsonWs with
            | '}' :: rest4 => some ([(k, v)], rest4)
            | ',' :: rest4 =>
              match jsonObjItems fuel rest4 with
              | some (kvs, rest5) => some ((k, v) :: kvs, rest5)
              | none => none
            | _ => none
        | _ => none
    | _ => none

end

/-- Model of `JSON.parse(s)`: `none` is a thrown `SyntaxError`.  The fuel
`2 * s.length + 2` dominates the parser's recursion depth, every two levels
of which consume at least one input character. -/
def jsonParse (s : String) : Option Json :=
  match jsonVal (2 * s.length + 2) s.data with
  | some (v, rest) => if rest.dropWhile jsonWs = [] then some v else none
  | none => none

/-- `Array.isArray(v) && v.every(p => typeof p === 'number')`. -/
def isNumberArray : Json → Bool
  | Json.arr xs => xs.all fun j => match j with | Json.num _ => true | _ => false
  | _ => false

/-- The numbers of a JSON array (elements that are not numbers are skipped;
only used under an `isNumberArray` guard, mirroring the source). -/
def numberArrayVals : Json → List Int
  | Json.arr xs => xs.filterMap fun j => match j with | Json.num n => some n | _ => none
  | _ => []

/-- A parsed data row: a JavaScript object from CSV parsing, modelled as an
association list from column name to string cell value.  An absent key
models an `undefined` property. -/
abbrev Row := List (String × String)

/-- Property access `row[k]`: `none` models `undefined`. -/
def getField (r : Row) (k : String) : Option String :=
  (r.find? fun p => p.1 == k).map (·.2)

/-- `String(row[k] || '')`: for string-valued cells this is the cell when
present and non-empty, and `""` otherwise. -/
def getS (r : Row) (k : String) : String :=
  (getField r k).getD ""

/-- Truthiness of `row[k]` for string-valued cells: present and non-empty. -/
def truthy (r : Row) (k : String) : Bool :=
  getS r k ≠ ""

/-- `${row[k] || 'N/A'}` as used inside the error message templates. -/
def idOr (r : Row) (k : String) : String :=
  let v := getS r k
  if v = "" then "N/A" else v

/-- `String(row[k])` without a `|| ''` guard: an `undefined` property
stringifies to `"undefined"`. -/
def getStr (r : Row) (k : String) : String :=
  match getField r k with
  | some v => v
  | none => "undefined"

/-! ### The PreferredPhases surface syntax

The source tests the range and comma shapes with the regex literals
`/^\\d+-\\d+$/` and `/^\\d+(?:,\\d+)*$/`.  In a JavaScript regex literal the
escape `\\` matches one literal backslash character, so `\\d+` matches a
backslash followed by one or more letters `d` — not a digit run.  The
models below embed exactly that (source `page.tsx` lines 735/745 and
869/876). -/

/-- `s.data.head? = some c`: model of `s.startsWith(c)` for one character. -/
def strStartsWith (s : String) (c : Char) : Bool :=
  s.data.head? = some c

/-- Model of `s.endsWith(c)` for one character. -/
def strEndsWith (s : String) (c : Char) : Bool :=
  s.data.getLast? = some c

/-- A full match of the regex chunk `\\d+`: one literal backslash followed
by one or more letters `d`. -/
def matchesBackslashDs (p : String) : Bool :=
  match p.data with
  | '\\' :: ds => ds ≠ [] ∧ ds.all (· = 'd')
  | _ => false

/-- Model of `/^\\d+-\\d+$/.test(s)`.  Since the chunk `\\d+` cannot contain
`'-'`, the regex matches exactly the strings with a single `'-'` whose two
halves each match `\\d+`. -/
def bsRangeTest (s : String) : Bool :=
  match jsSplit '-' s with
  | [a, b] => matchesBackslashDs a ∧ matchesBackslashDs b
  | _ => false

/-- Model of `/^\\d+(?:,\\d+)*$/.test(s)`: every comma-separated chunk
matches `\\d+` (the chunk cannot contain `','`). -/
def bsCommaTest (s : String) : Bool :=
  (jsSplit ',' s).all matchesBackslashDs

/-- `[a, a+1, ..., b]` for integers `a ≤ b` (the `for` loop of the range
branch). -/
def intRangeList (a b : Int) : List Int :=
  (List.range (b - a + 1).toNat).map fun k => a + k

/-- The helper `parsePreferredPhases` of the source (lines 860–881): parses
a `PreferredPhases` cell into the engine's `number[]`, silently returning
what it accumulated on malformed input.  In the comma branch the JavaScript
code keeps `NaN` entries produced by `Number`; they are modelled as `none`. -/
def parsePreferredPhases (phasesString : String) : List (Option Int) :=
  if strStartsWith phasesString '[' ∧ strEndsWith phasesString ']' then
    match jsonParse phasesString with
    | some v => if isNumberArray v then (numberArrayVals v).map some else []
    | none => []
  else if bsRangeTest phasesString then
    let parts := jsSplit '-' phasesString
    match jsNumber (parts.getD 0 ""), jsNumber (parts.getD 1 "") with
    | some a, some b => if a ≤ b then (intRangeList a b).map some else []
    | _, _ => []
  else if bsCommaTest phasesString then
    (jsSplit ',' phasesString).map jsNumber
  else []

/-! ### Per-dataset schema validation (`validateSingleDataset`) -/

inductive DType where
  | clients : DType
  | workers : DType
  | tasks : DType
deriving DecidableEq

/-- The string naming the dataset kind in messages. -/
def dtName : DType → String
  | .clients => "clients"
  | .workers => "workers"
  | .tasks => "tasks"

def requiredColumns : DType → List String
  | .clients => ["ClientID", "ClientName", "PriorityLevel", "RequestedTaskIDs", "GroupTag", "AttributesJSON"]
  | .workers => ["WorkerID", "WorkerName", "Skills", "AvailableSlots", "MaxLoadPerPhase", "WorkerGroup", "QualificationLevel"]
  | .tasks => ["TaskID", "TaskName", "Category", "Duration", "RequiredSkills", "PreferredPhases", "MaxConcurrent"]

def idFieldName : DType → String
  | .clients => "ClientID"
  | .workers => "WorkerID"
  | .tasks => "TaskID"

/-- Section 1 of `validateSingleDataset`: one aggregated error listing the
required columns absent from `Object.keys(data[0])`. -/
def missingColumnsErrors (data : List Row) (t : DType) : List String :=
  if data.length > 0 then
    let actualColumns := (data.headD []).map (·.1)
    let missingColumns := (requiredColumns t).filter fun c => ¬ actualColumns.contains c
    if missingColumns.length > 0 then
      ["Missing required columns for " ++ dtName t ++ ": " ++ String.intercalate ", " missingColumns]
    else []
  else []

/-- `ids.indexOf(id)` (the element is always present where used). -/
def jsIndexOf (l : List (Option String)) (x : Option String) : Nat :=
  l.findIdx fun y => y == x

/-- Section 2 of `validateSingleDataset`:
`ids.filter((id, index) => id !== undefined && ids.indexOf(id) !== index)` —
the defined key values occurring at a position later than their first. -/
def duplicateIds (data : List Row) (t : DType) : List String :=
  let ids := data.map fun row => getField row (idFieldName t)
  (ids.enum.filter fun p => p.2.isSome ∧ jsIndexOf ids p.2 ≠ p.1).map fun p => p.2.getD ""

/-- `[...new Set(l)]`: insertion-order deduplication keeping first
occurrences. -/
def dedupKeepFirst (l : List String) : List String :=
  l.foldl (fun acc x => if acc.contains x then acc else acc ++ [x]) []

/-- Section 2 of `validateSingleDataset`: the single duplicate-key error. -/
def duplicateIdErrors (data : List Row) (t : DType) : List String :=
  let dups := duplicateIds data t
  if dups.length > 0 then
    ["Duplicate IDs found for " ++ dtName t ++ ": " ++ String.intercalate ", " (dedupKeepFirst dups)]
  else []

/-- The per-row checks for a clients row: PriorityLevel range and
AttributesJSON parseability. -/
def clientRowErrors (i : Nat) (row : Row) : List String :=
  let priorityErr :=
    match jsParseInt (getS row "PriorityLevel") with
    | none =>
      ["Row " ++ toString (i + 1) ++ " (ClientID: " ++ idOr row "ClientID" ++ "): Invalid PriorityLevel. Must be between 1 and 5."]
    | some p =>
      if p < 1 ∨ p > 5 then
        ["Row " ++ toString (i + 1) ++ " (ClientID: " ++ idOr row "ClientID" ++ "): Invalid PriorityLevel. Must be between 1 and 5."]
      else []
  let jsonErr :=
    let attrsJson := getS row "AttributesJSON"
    if attrsJson ≠ "" ∧ jsTrim attrsJson ≠ "" then
      match jsonParse attrsJson with
      | some _ => []
      | none =>
        ["Row " ++ toString (i + 1) ++ " (ClientID: " ++ idOr row "ClientID" ++ "): Malformed AttributesJSON."]
    else []
  priorityErr ++ jsonErr

/-- The per-row checks for a workers row: AvailableSlots shape and
MaxLoadPerPhase range. -/
def workerRowErrors (i : Nat) (row : Row) : List String :=
  let slotsErr :=
    if truthy row "AvailableSlots" then
      let raw := getStr row "AvailableSlots"
      let tokens := jsSplit ',' raw
      if (tokens.map jsNumber).any (·.isNone)
          ∨ ¬ (tokens.all fun s => let t := jsTrim s; t ≠ "" ∧ t.data.all Char.isDigit) then
        ["Row " ++ toString (i + 1) ++ " (WorkerID: " ++ idOr row "WorkerID" ++ "): Malformed AvailableSlots. Must be comma-separated numbers."]
      else []
    else []
  let loadErr :=
    match jsParseInt (getS row "MaxLoadPerPhase") with
    | none =>
      ["Row " ++ toString (i + 1) ++ " (WorkerID: " ++ idOr row "WorkerID" ++ "): Invalid MaxLoadPerPhase. Must be a non-negative number."]
    | some m =>
      if m < 0 then
        ["Row " ++ toString (i + 1) ++ " (WorkerID: " ++ idOr row "WorkerID" ++ "): Invalid MaxLoadPerPhase. Must be a non-negative number."]
      else []
  slotsErr ++ loadErr

/-- The `PreferredPhases` block of the tasks row check (source lines
720–756), on the trimmed cell. -/
def taskPhasesCheck (i : Nat) (row : Row) (phasesString : String) : List String :=
  if strStartsWith phasesString '[' ∧ strEndsWith phasesString ']' then
    match jsonParse phasesString with
    | some v =>
      if isNumberArray v then []
      else ["Row " ++ toString (i + 1) ++ " (TaskID: " ++ idOr row "TaskID" ++ "): Malformed PreferredPhases array."]
    | none =>
      ["Row " ++ toString (i + 1) ++ " (TaskID: " ++ idOr row "TaskID" ++ "): Malformed PreferredPhases JSON array."]
  else if bsRangeTest phasesString then
    let parts := jsSplit '-' phasesString
    match jsNumber (parts.getD 0 ""), jsNumber (parts.getD 1 "") with
    | some a, some b =>
      if a ≤ b then []
      else ["Row " ++ toString (i + 1) ++ " (TaskID: " ++ idOr row "TaskID" ++ "): Malformed PreferredPhases range. Use \"start-end\" format where start <= end."]
    | _, _ =>
      ["Row " ++ toString (i + 1) ++ " (TaskID: " ++ idOr row "TaskID" ++ "): Malformed PreferredPhases range. Use \"start-end\" format where start <= end."]
  else if bsCommaTest phasesString then
    if ((jsSplit ',' phasesString).map jsNumber).any (·.isNone) then
      ["Row " ++ toString (i + 1) ++ " (TaskID: " ++ idOr row "TaskID" ++ "): Malformed PreferredPhases. Use \"1-3\" or \"2,4,5\" format."]
    else []
  else
    ["Row " ++ toString (i + 1) ++ " (TaskID: " ++ idOr row "TaskID" ++ "): Malformed PreferredPhases. Use \"1-3\" or \"2,4,5\" format."]

/-- The per-row checks for a tasks row: Duration, MaxConcurrent and the
`PreferredPhases` block. -/
def taskRowErrors (i : Nat) (row : Row) : List String :=
  let durationErr :=
    match jsParseInt (getS row "Duration") with
    | none =>
      ["Row " ++ toString (i + 1) ++ " (TaskID: " ++ idOr row "TaskID" ++ "): Invalid Duration. Must be 1 or greater."]
    | some d =>
      if d < 1 then
        ["Row " ++ toString (i + 1) ++ " (TaskID: " ++ idOr row "TaskID" ++ "): Invalid Duration. Must be 1 or greater."]
      else []
  let mcErr :=
    match jsParseInt (getS row "MaxConcurrent") with
    | none =>
      ["Row " ++ toString (i + 1) ++ " (TaskID: " ++ idOr row "TaskID" ++ "): Invalid MaxConcurrent. Must be 1 or greater."]
    | some m =>
      if m < 1 then
        ["Row " ++ toString (i + 1) ++ " (TaskID: " ++ idOr row "TaskID" ++ "): Invalid MaxConcurrent. Must be 1 or greater."]
      else []
  let phasesErr :=
    if truthy row "PreferredPhases" then
      taskPhasesCheck i row (jsTrim (getStr row "PreferredPhases"))
    else []
  durationErr ++ mcErr ++ phasesErr

/-- The per-row block of `validateSingleDataset` by dataset kind. -/
def rowErrors : DType → Nat → Row → List String
  | .clients, i, r => clientRowErrors i r
  | .workers, i, r => workerRowErrors i r
  | .tasks, i, r => taskRowErrors i r

/-- `validateSingleDataset` (source lines 646–760): missing columns, then
duplicate keys, then the per-row domain checks in row order, pushed into
one error array. -/
def validateSingleDataset (data : List Row) (t : DType) : List String :=
  let errors := missingColumnsErrors data t
  let errors := errors ++ duplicateIdErrors data t
  data.enum.foldl (fun es p => es ++ rowErrors t p.1 p.2) errors

/-! ### Cross-reference validators -/

/-- The message for an unresolved requested task id. -/
def clientRefMsg (i : Nat) (client : Row) (reqId : String) : String :=
  "Row " ++ toString (i + 1) ++ " (ClientID: " ++ idOr client "ClientID" ++ "): Requested Task ID '" ++ reqId ++ "' not found in tasks data."

/-- `validateClientTaskRelationship` (source lines 762–777): each trimmed,
non-empty token of `RequestedTaskIDs` not among the tasks' `TaskID`s pushes
one error, in row then token order. -/
def validateClientTaskRelationship (clients tasks : List Row) : List String :=
  let taskIds := tasks.map fun task => getStr task "TaskID"
  clients.enum.foldl
    (fun errs p =>
      if truthy p.2 "RequestedTaskIDs" then
        ((jsSplit ',' (getStr p.2 "RequestedTaskIDs")).map jsTrim).foldl
          (fun es reqId =>
            if reqId ≠ "" ∧ ¬ taskIds.contains reqId then
              es ++ [clientRefMsg p.1 p.2 reqId]
            else es)
          errs
      else errs)
    []

/-- The set-union of all workers' trimmed, non-empty skill tokens. -/
def allWorkerSkills (workers : List Row) : List String :=
  workers.flatMap fun worker => ((jsSplit ',' (getS worker "Skills")).map jsTrim).filter (· ≠ "")

/-- The message for a required skill no worker has. -/
def taskSkillMsg (i : Nat) (task : Row) (reqSkill : String) : String :=
  "Row " ++ toString (i + 1) ++ " (TaskID: " ++ idOr task "TaskID" ++ "): Required skill '" ++ reqSkill ++ "' not found in any worker's skills."

/-- `validateTaskWorkerRelationship` (source lines 779–794). -/
def validateTaskWorkerRelationship (tasks workers : List Row) : List String :=
  let workerSkills := allWorkerSkills workers
  tasks.enum.foldl
    (fun errs p =>
      if truthy p.2 "RequiredSkills" then
        ((jsSplit ',' (getStr p.2 "RequiredSkills")).map jsTrim).foldl
          (fun es reqSkill =>
            if reqSkill ≠ "" ∧ ¬ workerSkills.contains reqSkill then
              es ++ [taskSkillMsg p.1 p.2 reqSkill]
            else es)
          errs
      else errs)
    []

/-! ### Capacity validators -/

/-- `String(worker.AvailableSlots).split(',').map(Number).filter(n => !isNaN(n))`. -/
def workerSlotNums (worker : Row) : List Int :=
  ((jsSplit ',' (getS worker "AvailableSlots")).map jsNumber).filterMap id

/-- The overload message. -/
def overloadMsg (i : Nat) (worker : Row) (slotCount : Nat) (maxLoad : Int) : String :=
  "Row " ++ toString (i + 1) ++ " (WorkerID: " ++ idOr worker "WorkerID" ++ "): Worker is overloaded. Available slots (" ++ toString slotCount ++ ") are less than MaxLoadPerPhase (" ++ toString maxLoad ++ ")."

/-- `validateOverloadedWorkers` (source lines 797–809): a worker whose
`AvailableSlots` is truthy and whose `MaxLoadPerPhase` is defined and
parses is flagged when it has fewer numeric slot tokens than its declared
per-phase load. -/
def validateOverloadedWorkers (workers : List Row) : List String :=
  workers.enum.foldl
    (fun errs p =>
      if truthy p.2 "AvailableSlots" ∧ (getField p.2 "MaxLoadPerPhase").isSome then
        let availableSlots := workerSlotNums p.2
        match jsParseInt (getS p.2 "MaxLoadPerPhase") with
        | some m =>
          if (availableSlots.length : Int) < m then
            errs ++ [overloadMsg p.1 p.2 availableSlots.length m]
          else errs
        | none => errs
      else errs)
    []

/-- `parseInt(String(worker.MaxLoadPerPhase || '')) || 0`. -/
def workerMaxLoadOrZero (worker : Row) : Int :=
  (jsParseInt (getS worker "MaxLoadPerPhase")).getD 0

/-- The `phaseCapacities` dictionary of `validatePhaseSlotSaturation`
(source lines 817–822), as a total map with default `0`: each occurrence of
a phase among a worker's numeric slot tokens adds that worker's
`MaxLoadPerPhase` to the phase's capacity. -/
def phaseCapacities (workers : List Row) : Option Int → Int :=
  workers.foldl
    (fun caps worker =>
      (workerSlotNums worker).foldl
        (fun caps' phase => fun q => if q = some phase then caps' q + workerMaxLoadOrZero worker else caps' q)
        caps)
    (fun _ => 0)

/-- `parsePreferredPhases(String(task.PreferredPhases || ''))`. -/
def taskPhaseList (task : Row) : List (Option Int) :=
  parsePreferredPhases (getS task "PreferredPhases")

/-- `Set.prototype.add` over SameValueZero equality: insertion-order
set union. -/
def addToSet (s : List (Option Int)) (x : Option Int) : List (Option Int) :=
  if s.contains x then s else s ++ [x]

/-- The comparator `(a, b) => a - b`, as a `≤` test.  When either side is
`NaN` the subtraction is `NaN`, which `Array.prototype.sort` treats as `0`
(equal); JavaScript leaves the resulting order unspecified, and the model
fixes the stable-insertion outcome.  No claim depends on the placement of
the `NaN` key. -/
def jsPhaseLe : Option Int → Option Int → Bool
  | some a, some b => a ≤ b
  | _, _ => true

def insertPhaseSorted (x : Option Int) : List (Option Int) → List (Option Int)
  | [] => [x]
  | y :: ys => if jsPhaseLe y x then y :: insertPhaseSorted x ys else x :: y :: ys

/-- `Array.from(allPhases).sort((a, b) => a - b)`. -/
def sortPhases (l : List (Option Int)) : List (Option Int) :=
  l.foldl (fun acc x => insertPhaseSorted x acc) []

/-- The saturation message. -/
def phaseSatMsg (phase : Option Int) (demand capacity : Int) : String :=
  "Phase " ++ jsNumToString phase ++ ": Total task duration (" ++ toString demand ++ ") exceeds available worker capacity (" ++ toString capacity ++ ")."

/-- `validatePhaseSlotSaturation` (source lines 812–857): for each phase in
the union of the tasks' parsed `PreferredPhases` (in ascending order), the
sum of `Duration` over tasks preferring that phase is compared with the
accumulated phase capacity.  (The source also builds a `taskDurations`
dictionary it never reads; it is omitted.) -/
def validatePhaseSlotSaturation (tasks workers : List Row) : List String :=
  let caps := phaseCapacities workers
  let allPhases := tasks.foldl (fun s task => (taskPhaseList task).foldl addToSet s) []
  (sortPhases allPhases).foldl
    (fun errs phase =>
      let totalTaskDurationInPhase := tasks.foldl
        (fun acc task =>
          if (taskPhaseList task).contains phase then
            acc + ((jsParseInt (getS task "Duration")).getD 0)
          else acc)
        (0 : Int)
      let availableCapacity := caps phase
      if totalTaskDurationInPhase > availableCapacity then
        errs ++ [phaseSatMsg phase totalTaskDurationInPhase availableCapacity]
      else errs)
    []

/-- The `skillToWorkerCount` dictionary of `validateMaxConcurrencyFeasibility`
(source lines 888–894), as a total map with default `0`: each occurrence of
a skill token among a worker's trimmed, non-empty skill tokens adds one. -/
def skillToWorkerCount (workers : List Row) : String → Nat :=
  workers.foldl
    (fun counts worker =>
      (((jsSplit ',' (getS worker "Skills")).map jsTrim).filter (· ≠ "")).foldl
        (fun counts' skill => fun k => if k = skill then counts' k + 1 else counts' k)
        counts)
    (fun _ => 0)

/-- The concurrency-infeasibility message. -/
def maxConcMsg (i : Nat) (task : Row) (maxConcurrent : Int) : String :=
  "Row " ++ toString (i + 1) ++ " (TaskID: " ++ idOr task "TaskID" ++ "): MaxConcurrent (" ++ toString maxConcurrent ++ ") might not be feasible for all required skills. Not enough qualified workers."

/-- `validateMaxConcurrencyFeasibility` (source lines 884–915). -/
def validateMaxConcurrencyFeasibility (tasks workers : List Row) : List String :=
  let counts := skillToWorkerCount workers
  tasks.enum.foldl
    (fun errs p =>
      if truthy p.2 "RequiredSkills" ∧ (getField p.2 "MaxConcurrent").isSome then
        let requiredSkills := (jsSplit ',' (getStr p.2 "RequiredSkills")).map jsTrim
        match jsParseInt (getS p.2 "MaxConcurrent") with
        | some k =>
          if k > 0 then
            if ¬ requiredSkills.all (fun skill => (counts skill : Int) ≥ k) then
              errs ++ [maxConcMsg p.1 p.2 k]
            else errs
          else errs
        | none => errs
      else errs)
    []

/-- `validateCircularCoRunGroups` placeholder (source lines 918–923). -/
def validateCircularCoRunGroups (_tasks : List Row) : List String := []

/-- `validateConflictingRules` placeholder (source lines 926–931). -/
def validateConflictingRules (_tasks : List Row) : List String := []

/-! ### Aggregation (`triggerFullValidation`) -/

/-- The aggregate report: one ordered error list per dataset key.  An empty
list models the key being absent from the source's `allErrors` object (the
source only ever assigns non-empty lists). -/
structure ValidationReport where
  clients : List String
  workers : List String
  tasks : List String
deriving DecidableEq

/-- `if (extra.length > 0) allErrors[key] = [...(allErrors[key] || []), ...extra]`. -/
def appendIfNonempty (base extra : List String) : List String :=
  if extra.length > 0 then base ++ extra else base

/-- The validation pass of `triggerFullValidation` (source lines 598–636),
as a pure function of the snapshot of the three datasets.  The two
placeholder validators are called on the tasks state variable in the
source; they return `[]` on every input, so calling them on the snapshot is
equivalent. -/
def validateAll (allClientsData allWorkersData allTasksData : List Row) : ValidationReport :=
  let clientErrors := validateSingleDataset allClientsData .clients
  let workerErrors := validateSingleDataset allWorkersData .workers
  let taskErrors := validateSingleDataset allTasksData .tasks
  let c0 := appendIfNonempty [] clientErrors
  let w0 := appendIfNonempty [] workerErrors
  let t0 := appendIfNonempty [] taskErrors
  let c1 :=
    if allClientsData.length > 0 ∧ allTasksData.length > 0 then
      appendIfNonempty c0 (validateClientTaskRelationship allClientsData allTasksData)
    else c0
  let t1 :=
    if allTasksData.length > 0 ∧ allWorkersData.length > 0 then
      appendIfNonempty t0 (validateTaskWorkerRelationship allTasksData allWorkersData)
    else t0
  let w1 := appendIfNonempty w0 (validateOverloadedWorkers allWorkersData)
  let t2 := appendIfNonempty t1 (validatePhaseSlotSaturation allTasksData allWorkersData)
  let t3 := appendIfNonempty t2 (validateMaxConcurrencyFeasibility allTasksData allWorkersData)
  let t4 := appendIfNonempty t3 (validateCircularCoRunGroups allTasksData)
  let t5 := appendIfNonempty t4 (validateConflictingRules allTasksData)
  ⟨c1, w1, t5⟩

/-! ### Specification-side definitions

These definitions restate, in direct `filter`/`map` form, what the claims
say the validators compute; the theorems below compare the source-derived
validators with them. -/

/-- `new Set(tasks.map(task => String(task.TaskID)))`, as a list. -/
def taskIdsOf (tasks : List Row) : List String :=
  tasks.map fun task => getStr task "TaskID"

/-- The trimmed tokens of a client's `RequestedTaskIDs`. -/
def requestedTokens (client : Row) : List String :=
  (jsSplit ',' (getStr client "RequestedTaskIDs")).map jsTrim

/-- The trimmed tokens of a task's `RequiredSkills`. -/
def requiredSkillTokens (task : Row) : List String :=
  (jsSplit ',' (getStr task "RequiredSkills")).map jsTrim

/-- Claim-side form of the client→task reference check: one error per
non-empty trimmed token matching no `TaskID`, in row then token order. -/
def clientRefSpec (clients tasks : List Row) : List String :=
  clients.enum.flatMap fun p =>
    if truthy p.2 "RequestedTaskIDs" then
      ((requestedTokens p.2).filter fun r =>
        decide (r ≠ "" ∧ ¬ (taskIdsOf tasks).contains r)).map (clientRefMsg p.1 p.2)
    else []

/-- Claim-side form of the task→worker skill reference check. -/
def taskSkillRefSpec (tasks workers : List Row) : List String :=
  tasks.enum.flatMap fun p =>
    if truthy p.2 "RequiredSkills" then
      ((requiredSkillTokens p.2).filter fun s =>
        decide (s ≠ "" ∧ ¬ (allWorkerSkills workers).contains s)).map (taskSkillMsg p.1 p.2)
    else []

/-- A worker flagged by the overload check: truthy `AvailableSlots`,
defined `MaxLoadPerPhase` parsing to `m`, and fewer numeric slot tokens
than `m`. -/
def workerOverloadedB (worker : Row) : Bool :=
  truthy worker "AvailableSlots" && (getField worker "MaxLoadPerPhase").isSome &&
    (match jsParseInt (getS worker "MaxLoadPerPhase") with
     | some m => decide (((workerSlotNums worker).length : Int) < m)
     | none => false)

/-- Claim-side form of the overload check: exactly one error per flagged
worker, in row order. -/
def overloadSpec (workers : List Row) : List String :=
  (workers.enum.filter fun p => workerOverloadedB p.2).map fun p =>
    overloadMsg p.1 p.2 (workerSlotNums p.2).length
      ((jsParseInt (getS p.2 "MaxLoadPerPhase")).getD 0)

/-- The number of occurrences of a skill token across all workers'
normalized skill lists (a worker listing a skill `n` times contributes
`n`). -/
def skillOccurrences (workers : List Row) (skill : String) : Nat :=
  (allWorkerSkills workers).count skill

/-- The number of distinct workers whose normalized skill list contains the
skill — the counting the claim describes. -/
def workersHoldingSkill (workers : List Row) (skill : String) : Nat :=
  (workers.filter fun w =>
    (((jsSplit ',' (getS w "Skills")).map jsTrim).filter (· ≠ "")).contains skill).length

/-- A task flagged by the concurrency-feasibility check: truthy
`RequiredSkills`, defined `MaxConcurrent` parsing to `k > 0`, and some
required-skill token whose occurrence count is below `k`. -/
def maxConcInfeasibleB (workers : List Row) (task : Row) : Bool :=
  truthy task "RequiredSkills" && (getField task "MaxConcurrent").isSome &&
    (match jsParseInt (getS task "MaxConcurrent") with
     | some k =>
       decide (0 < k) &&
         (requiredSkillTokens task).any fun skill =>
           decide ((skillOccurrences workers skill : Int) < k)
     | none => false)

/-- Claim-side form of the concurrency-feasibility check. -/
def maxConcSpec (tasks workers : List Row) : List String :=
  (tasks.enum.filter fun p => maxConcInfeasibleB workers p.2).map fun p =>
    maxConcMsg p.1 p.2 ((jsParseInt (getS p.2 "MaxConcurrent")).getD 0)

/-- The set-based per-phase capacity the claim about slot deduplication
contrasts with: each worker whose slot set contains the phase contributes
its `MaxLoadPerPhase` once. -/
def setBasedPhaseCapacity (workers : List Row) (phase : Int) : Int :=
  ((workers.filter fun w => (workerSlotNums w).contains phase).map workerMaxLoadOrZero).sum

/-- The cross-reference stage for the clients key, with the dataset
non-emptiness guard of `triggerFullValidation`. -/
def crossClientErrors (clients tasks : List Row) : List String :=
  if clients.length > 0 ∧ tasks.length > 0 then
    validateClientTaskRelationship clients tasks
  else []

/-- The cross-reference stage for the tasks key, with its guard. -/
def crossTaskErrors (tasks workers : List Row) : List String :=
  if tasks.length > 0 ∧ workers.length > 0 then
    validateTaskWorkerRelationship tasks workers
  else []

/-! ### Generic fold lemmas

The validators accumulate errors by `errors.push(...)`, embedded as
`foldl` with an append; these lemmas convert that shape into
`flatMap`/`filter`/`map` form. -/

theorem foldl_push_blocks {β : Type} (f : List String → β → List String)
    (blk : β → List String) (hf : ∀ es b, f es b = es ++ blk b) :
    ∀ (l : List β) (acc : List String), l.foldl f acc = acc ++ l.flatMap blk := by
  intro l
  induction l with
  | nil => intro acc; simp
  | cons b l ih =>
    intro acc
    rw [List.foldl_cons, hf, ih, List.flatMap_cons, List.append_assoc]

theorem flatMap_ite_singleton {β : Type} (p : β → Prop) [DecidablePred p]
    (m : β → String) (l : List β) :
    (l.flatMap fun b => if p b then [m b] else [])
      = (l.filter fun b => decide (p b)).map m := by
  induction l with
  | nil => rfl
  | cons b l ih =>
    by_cases h : p b <;>
      simp [List.flatMap_cons, List.filter_cons, h, ih]

theorem foldl_push_ite {β : Type} (p : β → Prop) [DecidablePred p]
    (m : β → String) (l : List β) (acc : List String) :
    l.foldl (fun es b => if p b then es ++ [m b] else es) acc
      = acc ++ (l.filter fun b => decide (p b)).map m := by
  rw [foldl_push_blocks (fun es b => if p b then es ++ [m b] else es)
        (fun b => if p b then [m b] else [])
        (fun es b => by by_cases h : p b <;> simp [h]) l acc,
      flatMap_ite_singleton]

theorem appendIfNonempty_eq (base extra : List String) :
    appendIfNonempty base extra = base ++ extra := by
  cases extra <;> simp [appendIfNonempty]

theorem flatMap_iteB_singleton {β : Type} (p : β → Bool) (m : β → String) (l : List β) :
    (l.flatMap fun b => if p b then [m b] else []) = (l.filter p).map m := by
  induction l with
  | nil => rfl
  | cons b l ih =>
    by_cases h : p b <;> simp [List.flatMap_cons, List.filter_cons, h, ih]

/-! ### Structure lemmas for the validators -/

theorem validateClientTaskRelationship_eq (clients tasks : List Row) :
    validateClientTaskRelationship clients tasks = clientRefSpec clients tasks := by
  unfold validateClientTaskRelationship clientRefSpec
  rw [foldl_push_blocks _
    (fun p =>
      if truthy p.2 "RequestedTaskIDs" then
        ((requestedTokens p.2).filter fun r =>
          decide (r ≠ "" ∧ ¬ (taskIdsOf tasks).contains r)).map (clientRefMsg p.1 p.2)
      else [])
    (fun es p => by
      by_cases ht : truthy p.2 "RequestedTaskIDs"
      · simp only [ht, if_true]
        exact foldl_push_ite _ _ _ es
      · simp [ht])
    clients.enum []]
  simp

theorem validateTaskWorkerRelationship_eq (tasks workers : List Row) :
    validateTaskWorkerRelationship tasks workers = taskSkillRefSpec tasks workers := by
  unfold validateTaskWorkerRelationship taskSkillRefSpec
  rw [foldl_push_blocks _
    (fun p =>
      if truthy p.2 "RequiredSkills" then
        ((requiredSkillTokens p.2).filter fun s =>
          decide (s ≠ "" ∧ ¬ (allWorkerSkills workers).contains s)).map (taskSkillMsg p.1 p.2)
      else [])
    (fun es p => by
      by_cases ht : truthy p.2 "RequiredSkills"
      · simp only [ht, if_true]
        exact foldl_push_ite _ _ _ es
      · simp [ht])
    tasks.enum []]
  simp

theorem validateOverloadedWorkers_eq (workers : List Row) :
    validateOverloadedWorkers workers = overloadSpec workers := by
  unfold validateOverloadedWorkers overloadSpec
  rw [foldl_push_blocks _
    (fun p =>
      if workerOverloadedB p.2 then
        [overloadMsg p.1 p.2 (workerSlotNums p.2).length
          ((jsParseInt (getS p.2 "MaxLoadPerPhase")).getD 0)]
      else [])
    (fun es p => by
      by_cases hg : truthy p.2 "AvailableSlots" ∧ (getField p.2 "MaxLoadPerPhase").isSome
      · simp only [hg, if_true]
        cases hm : jsParseInt (getS p.2 "MaxLoadPerPhase") with
        | none => simp [workerOverloadedB, hg.1, hg.2, hm]
        | some m =>
          by_cases hlt : ((workerSlotNums p.2).length : Int) < m
          · simp [workerOverloadedB, hg.1, hg.2, hm, hlt]
          · simp [workerOverloadedB, hg.1, hg.2, hm, hlt]
      · have : workerOverloadedB p.2 = false := by
          unfold workerOverloadedB
          rcases not_and_or.mp hg with h | h
          · simp [Bool.eq_false_iff.mpr h]
          · simp [Bool.eq_false_iff.mpr h]
        simp [hg, this])
    workers.enum []]
  simp only [List.nil_append]
  exact flatMap_iteB_singleton (fun p => workerOverloadedB p.2) _ workers.enum

/-- Pointwise value of the inner fold building a counting dictionary. -/
theorem countDict_aux (skills : List String) (counts : String → Nat) (k : String) :
    (skills.foldl
        (fun counts' skill => fun q => if q = skill then counts' q + 1 else counts' q)
        counts) k
      = counts k + skills.count k := by
  induction skills generalizing counts with
  | nil => simp
  | cons s rest ih =>
    rw [List.foldl_cons, ih, List.count_cons]
    by_cases h : k = s
    · subst h; simp; omega
    · have hs : (s == k) = false := by
        simp [Ne.symm h]
      simp [h, hs]

/-- The `skillToWorkerCount` dictionary counts occurrences of the skill
token across all workers' normalized skill lists (a worker listing a skill
twice is counted twice). -/
theorem skillToWorkerCount_eq (workers : List Row) (k : String) :
    skillToWorkerCount workers k = skillOccurrences workers k := by
  unfold skillToWorkerCount skillOccurrences allWorkerSkills
  suffices h : ∀ (ws : List Row) (counts : String → Nat),
      (ws.foldl
        (fun counts worker =>
          ((((jsSplit ',' (getS worker "Skills")).map jsTrim).filter (· ≠ "")).foldl
            (fun counts' skill => fun q => if q = skill then counts' q + 1 else counts' q)
            counts))
        counts) k
      = counts k
        + ((ws.flatMap fun worker =>
            ((jsSplit ',' (getS worker "Skills")).map jsTrim).filter (· ≠ "")).count k) by
    rw [h workers (fun _ => 0)]
    simp
  intro ws
  induction ws with
  | nil => intro counts; simp
  | cons w rest ih =>
    intro counts
    rw [List.foldl_cons, ih, countDict_aux, List.flatMap_cons, List.count_append]
    omega

theorem validateMaxConcurrencyFeasibility_eq (tasks workers : List Row) :
    validateMaxConcurrencyFeasibility tasks workers = maxConcSpec tasks workers := by
  unfold validateMaxConcurrencyFeasibility maxConcSpec
  rw [foldl_push_blocks _
    (fun p =>
      if maxConcInfeasibleB workers p.2 then
        [maxConcMsg p.1 p.2 ((jsParseInt (getS p.2 "MaxConcurrent")).getD 0)]
      else [])
    (fun es p => by
      by_cases hg : truthy p.2 "RequiredSkills" ∧ (getField p.2 "MaxConcurrent").isSome
      · simp only [hg, if_true]
        cases hk : jsParseInt (getS p.2 "MaxConcurrent") with
        | none => simp [maxConcInfeasibleB, hg.1, hg.2, hk]
        | some k =>
          by_cases hpos : k > 0
          · by_cases hall :
              ((jsSplit ',' (getStr p.2 "RequiredSkills")).map jsTrim).all
                (fun skill => decide ((skillToWorkerCount workers skill : Int) ≥ k)) = true
            · have hinf : maxConcInfeasibleB workers p.2 = false := by
                unfold maxConcInfeasibleB
                simp only [hg.1, hg.2, hk, requiredSkillTokens, Bool.true_and]
                simp only [List.all_eq_true] at hall
                simp only [Bool.and_eq_false_iff, List.any_eq_false]
                right
                intro skill hmem
                have := hall skill hmem
                rw [← skillToWorkerCount_eq]
                simpa using this
              simp [hinf, hpos, hall]
            · have hinf : maxConcInfeasibleB workers p.2 = true := by
                unfold maxConcInfeasibleB
                simp only [hg.1, hg.2, hk, requiredSkillTokens, Bool.true_and]
                simp only [List.all_eq_true] at hall
                push_neg at hall
                obtain ⟨skill, hmem, hlt⟩ := hall
                simp only [Bool.and_eq_true, List.any_eq_true]
                refine ⟨by simpa using hpos, skill, hmem, ?_⟩
                rw [← skillToWorkerCount_eq]
                simpa using hlt
              simp [hinf, hpos, hall]
          · have hinf : maxConcInfeasibleB workers p.2 = false := by
              unfold maxConcInfeasibleB
              simp [hg.1, hg.2, hk, hpos]
            simp [hinf, hpos]
      · have hinf : maxConcInfeasibleB workers p.2 = false := by
          unfold maxConcInfeasibleB
          rcases not_and_or.mp hg with h | h
          · simp [Bool.eq_false_iff.mpr h]
          · simp [Bool.eq_false_iff.mpr h]
        simp [hg, hinf])
    tasks.enum []]
  simp only [List.nil_append]
  exact flatMap_iteB_singleton (fun p => maxConcInfeasibleB workers p.2) _ tasks.enum

/-- Pointwise value of the inner fold building the phase-capacity
dictionary for one worker. -/
theorem capDict_aux (slots : List Int) (ml : Int) (caps : Option Int → Int) (p : Int) :
    (slots.foldl
        (fun caps' phase => fun q => if q = some phase then caps' q + ml else caps' q)
        caps) (some p)
      = caps (some p) + (slots.count p : Int) * ml := by
  induction slots generalizing caps with
  | nil => simp
  | cons s rest ih =>
    rw [List.foldl_cons, ih, List.count_cons]
    by_cases h : p = s
    · subst h
      simp only [if_pos rfl, beq_self_eq_true, if_true]
      push_cast
      ring
    · have hs : (s == p) = false := by simp [Ne.symm h]
      have : (some p = some s) = False := by simp [h]
      simp only [this, if_false, hs, Bool.false_eq_true, if_false]
      push_cast
      ring

/-- Each occurrence of a phase among a worker's numeric slot tokens
contributes that worker's `MaxLoadPerPhase` to the phase's capacity:
duplicated slot tokens are not deduplicated. -/
theorem phaseCapacities_count (workers : List Row) (p : Int) :
    phaseCapacities workers (some p)
      = (workers.map fun w => ((workerSlotNums w).count p : Int) * workerMaxLoadOrZero w).sum := by
  unfold phaseCapacities
  suffices h : ∀ (ws : List Row) (caps : Option Int → Int),
      (ws.foldl
        (fun caps worker =>
          (workerSlotNums worker).foldl
            (fun caps' phase => fun q =>
              if q = some phase then caps' q + workerMaxLoadOrZero worker else caps' q)
            caps)
        caps) (some p)
      = caps (some p)
        + (ws.map fun w => ((workerSlotNums w).count p : Int) * workerMaxLoadOrZero w).sum by
    rw [h workers (fun _ => 0)]
    simp
  intro ws
  induction ws with
  | nil => intro caps; simp
  | cons w rest ih =>
    intro caps
    rw [List.foldl_cons, ih, capDict_aux, List.map_cons, List.sum_cons]
    ring

/-! ### Duplicate-key characterization -/

theorem dedupKeepFirst_mem_aux (l acc : List String) (x : String) :
    x ∈ l.foldl (fun a y => if a.contains y then a else a ++ [y]) acc ↔ x ∈ acc ∨ x ∈ l := by
  induction l generalizing acc with
  | nil => simp
  | cons y rest ih =>
    rw [List.foldl_cons]
    by_cases h : acc.contains y
    · rw [if_pos h, ih]
      have hy : y ∈ acc := by simpa using h
      simp only [List.mem_cons]
      constructor
      · rintro (hx | hx)
        · exact Or.inl hx
        · exact Or.inr (Or.inr hx)
      · rintro (hx | hx | hx)
        · exact Or.inl hx
        · exact Or.inl (hx ▸ hy)
        · exact Or.inr hx
    · rw [if_neg h, ih]
      simp only [List.mem_append, List.mem_singleton, List.mem_cons]
      tauto

/-- Membership in `[...new Set(l)]` is membership in `l`. -/
theorem dedupKeepFirst_mem (l : List String) (x : String) :
    x ∈ dedupKeepFirst l ↔ x ∈ l := by
  unfold dedupKeepFirst
  rw [dedupKeepFirst_mem_aux]
  simp

theorem dedupKeepFirst_nodup_aux (l acc : List String) (h : acc.Nodup) :
    (l.foldl (fun a y => if a.contains y then a else a ++ [y]) acc).Nodup := by
  induction l generalizing acc with
  | nil => simpa
  | cons y rest ih =>
    rw [List.foldl_cons]
    by_cases hc : acc.contains y
    · rw [if_pos hc]; exact ih acc h
    · rw [if_neg hc]
      refine ih (acc ++ [y]) ?_
      rw [List.nodup_append]
      refine ⟨h, List.nodup_singleton y, ?_⟩
      intro a ha hy
      rw [List.mem_singleton] at hy
      subst hy
      exact hc (by simpa using ha)

/-- `[...new Set(l)]` has no duplicates. -/
theorem dedupKeepFirst_nodup (l : List String) : (dedupKeepFirst l).Nodup :=
  dedupKeepFirst_nodup_aux l [] List.nodup_nil

/-- The first-occurrence index found by `ids.indexOf` carries the value. -/
theorem jsIndexOf_spec (l : List (Option String)) (v : String) (h : some v ∈ l) :
    jsIndexOf l (some v) < l.length
      ∧ ∀ hw : jsIndexOf l (some v) < l.length, l[jsIndexOf l (some v)] = some v := by
  have hlt : List.findIdx (fun y => y == some v) l < l.length :=
    List.findIdx_lt_length_of_exists ⟨some v, h, by simp⟩
  refine ⟨hlt, fun hw => ?_⟩
  have := @List.findIdx_getElem _ (fun y => y == some v) l hw
  simpa using this

/-- Two occurrences at distinct positions give `2 ≤ count`. -/
theorem two_le_count_of_ne (l : List (Option String)) (v : String)
    (a b : Nat) (ha : a < l.length) (hb : b < l.length) (hab : a ≠ b)
    (hva : l[a] = some v) (hvb : l[b] = some v) :
    2 ≤ l.count (some v) := by
  suffices hsub : [some v, some v].Sublist l by
    have := hsub.count_le (some v)
    simpa using this
  rcases lt_or_gt_of_ne hab with hlt | hlt
  · have h1 : [some v].Sublist (l.take b) := by
      rw [List.singleton_sublist, List.mem_take_iff_getElem]
      exact ⟨a, lt_min hlt ha, hva⟩
    have h2 : [some v].Sublist (l.drop b) := by
      rw [List.singleton_sublist, List.drop_eq_getElem_cons hb, hvb]
      exact List.mem_cons_self _ _
    have h3 := h1.append h2
    rwa [List.take_append_drop] at h3
  · have h1 : [some v].Sublist (l.take a) := by
      rw [List.singleton_sublist, List.mem_take_iff_getElem]
      exact ⟨b, lt_min hlt hb, hvb⟩
    have h2 : [some v].Sublist (l.drop a) := by
      rw [List.singleton_sublist, List.drop_eq_getElem_cons ha, hva]
      exact List.mem_cons_self _ _
    have h3 := h1.append h2
    rwa [List.take_append_drop] at h3

/-- `duplicateIds` contains exactly the defined key values occurring more
than once among the rows' key cells. -/
theorem duplicateIds_mem_iff (data : List Row) (t : DType) (v : String) :
    v ∈ duplicateIds data t
      ↔ 2 ≤ (data.map fun row => getField row (idFieldName t)).count (some v) := by
  unfold duplicateIds
  simp only []
  set ids := data.map fun row => getField row (idFieldName t) with hids
  constructor
  · intro hv
    rw [List.mem_map] at hv
    obtain ⟨p, hp, hpv⟩ := hv
    rw [List.mem_filter] at hp
    obtain ⟨hmem, hcond⟩ := hp
    have hcond' : p.2.isSome ∧ jsIndexOf ids p.2 ≠ p.1 := of_decide_eq_true hcond
    rw [List.mem_enum_iff_getElem?] at hmem
    have hplen : p.1 < ids.length := by
      rcases List.getElem?_eq_some_iff.mp hmem with ⟨h, _⟩
      exact h
    have hpval : ids[p.1] = p.2 := by
      rcases List.getElem?_eq_some_iff.mp hmem with ⟨h, hval⟩
      exact hval
    obtain ⟨w, hw⟩ := Option.isSome_iff_exists.mp hcond'.1
    have hw' : p.2 = some v := by
      rw [hw] at hpv ⊢
      simp only [Option.getD_some] at hpv
      rw [hpv]
    rw [hw'] at hpval hcond'
    have hvmem : some v ∈ ids := hpval ▸ List.getElem_mem hplen
    obtain ⟨hjlt, hjval⟩ := jsIndexOf_spec ids v hvmem
    exact two_le_count_of_ne ids v (jsIndexOf ids (some v)) p.1 hjlt hplen
      hcond'.2 (hjval hjlt) hpval
  · intro hcount
    have hvmem : some v ∈ ids := by
      rw [← List.count_pos_iff]
      omega
    obtain ⟨hjlt, hjval⟩ := jsIndexOf_spec ids v hvmem
    set j := jsIndexOf ids (some v) with hj
    have hcsplit : ids.count (some v)
        = (ids.take j).count (some v) + (ids.drop j).count (some v) := by
      conv_lhs => rw [← List.take_append_drop j ids]
      rw [List.count_append]
    have htake : (ids.take j).count (some v) = 0 := by
      rw [List.count_eq_zero]
      intro hmem
      rw [List.mem_take_iff_getElem] at hmem
      obtain ⟨i, hi, hival⟩ := hmem
      have hij : i < j := lt_of_lt_of_le hi (min_le_left _ _)
      have := @List.not_of_lt_findIdx _ (fun y => y == some v) ids i hij
      rw [hival] at this
      simp at this
    have hdrop : (ids.drop j).count (some v)
        = (ids.drop (j + 1)).count (some v) + 1 := by
      rw [List.drop_eq_getElem_cons hjlt, hjval hjlt, List.count_cons]
      simp
    have hrest : 0 < (ids.drop (j + 1)).count (some v) := by omega
    have hmem2 : some v ∈ ids.drop (j + 1) := List.count_pos_iff.mp hrest
    rw [List.mem_drop_iff_getElem] at hmem2
    obtain ⟨i, hilen, hival⟩ := hmem2
    rw [List.mem_map]
    refine ⟨(j + 1 + i, some v), ?_, by simp⟩
    rw [List.mem_filter]
    constructor
    · rw [List.mem_enum_iff_getElem?]
      have : j + 1 + i < ids.length := by omega
      rw [List.getElem?_eq_getElem this]
      simpa using hival
    · refine decide_eq_true ?_
      refine ⟨by simp, ?_⟩
      rw [← hj]
      omega

/-- `validateSingleDataset` in stage form: missing-columns error, then the
duplicate-key error, then the per-row domain errors in row order. -/
theorem validateSingleDataset_stages (data : List Row) (t : DType) :
    validateSingleDataset data t
      = missingColumnsErrors data t ++ duplicateIdErrors data t
          ++ data.enum.flatMap fun p => rowErrors t p.1 p.2 := by
  unfold validateSingleDataset
  rw [foldl_push_blocks _ (fun p => rowErrors t p.1 p.2) (fun es b => rfl) data.enum
      (missingColumnsErrors data t ++ duplicateIdErrors data t)]

/-- The clients key of the report: schema stage then guarded
cross-reference stage. -/
theorem validateAll_clients_stages (c w t : List Row) :
    (validateAll c w t).clients
      = validateSingleDataset c .clients ++ crossClientErrors c t := by
  unfold validateAll crossClientErrors
  by_cases h : c.length > 0 ∧ t.length > 0 <;>
    simp [h, appendIfNonempty_eq]

/-- The workers key of the report: schema stage then capacity stage. -/
theorem validateAll_workers_stages (c w t : List Row) :
    (validateAll c w t).workers
      = validateSingleDataset w .workers ++ validateOverloadedWorkers w := by
  unfold validateAll
  simp [appendIfNonempty_eq]

/-- The tasks key of the report: schema stage, guarded cross-reference
stage, then the two capacity stages. -/
theorem validateAll_tasks_stages (c w t : List Row) :
    (validateAll c w t).tasks
      = validateSingleDataset t .tasks ++ crossTaskErrors t w
          ++ validatePhaseSlotSaturation t w ++ validateMaxConcurrencyFeasibility t w := by
  unfold validateAll crossTaskErrors validateCircularCoRunGroups validateConflictingRules
  by_cases h : t.length > 0 ∧ w.length > 0 <;>
    simp [h, appendIfNonempty_eq]

/-! ### Concrete example rows for the claim scenarios -/

/-- A fully-populated, otherwise valid tasks row with the given
`PreferredPhases` cell. -/
def exTask (pp : String) : Row :=
  [("TaskID", "T1"), ("TaskName", "Task"), ("Category", "Cat"), ("Duration", "1"),
   ("RequiredSkills", "python"), ("PreferredPhases", pp), ("MaxConcurrent", "1")]

/-- The worker of the capacity-saturation scenario: `AvailableSlots:"1"`,
`MaxLoadPerPhase:2`. -/
def exSatWorker : Row :=
  [("WorkerID", "W1"), ("WorkerName", "W"), ("Skills", "python"),
   ("AvailableSlots", "1"), ("MaxLoadPerPhase", "2"), ("WorkerGroup", "G"),
   ("QualificationLevel", "1")]

/-- The task of the capacity-saturation scenario, with the given
`PreferredPhases` and `Duration` cells. -/
def exSatTask (pp d : String) : Row :=
  [("TaskID", "T1"), ("TaskName", "Task"), ("Category", "Cat"), ("Duration", d),
   ("RequiredSkills", "python"), ("PreferredPhases", pp), ("MaxConcurrent", "1")]

/-- The task of the skill-concurrency scenario: `RequiredSkills:"python"`,
`MaxConcurrent:2`. -/
def exConcTask : Row :=
  [("TaskID", "T1"), ("TaskName", "Task"), ("Category", "Cat"), ("Duration", "1"),
   ("RequiredSkills", "python"), ("PreferredPhases", "[1]"), ("MaxConcurrent", "2")]

/-- A worker whose `Skills` cell lists `python` once. -/
def exPyWorker (wid : String) : Row :=
  [("WorkerID", wid), ("WorkerName", "W"), ("Skills", "python"),
   ("AvailableSlots", "1,2"), ("MaxLoadPerPhase", "1"), ("WorkerGroup", "G"),
   ("QualificationLevel", "1")]

/-- A worker whose `Skills` cell lists `python` twice. -/
def exDupSkillWorker : Row :=
  [("WorkerID", "W1"), ("WorkerName", "W"), ("Skills", "python,python"),
   ("AvailableSlots", "1,2"), ("MaxLoadPerPhase", "1"), ("WorkerGroup", "G"),
   ("QualificationLevel", "1")]

/-- A worker with an empty `AvailableSlots` cell and `MaxLoadPerPhase:2`. -/
def exEmptySlotsWorker : Row :=
  [("WorkerID", "W1"), ("WorkerName", "W"), ("Skills", "python"),
   ("AvailableSlots", ""), ("MaxLoadPerPhase", "2"), ("WorkerGroup", "G"),
   ("QualificationLevel", "1")]

/-- A worker with one slot and `MaxLoadPerPhase:2`: structurally
overloaded. -/
def exShortWorker : Row :=
  [("WorkerID", "W1"), ("WorkerName", "W"), ("Skills", "python"),
   ("AvailableSlots", "1"), ("MaxLoadPerPhase", "2"), ("WorkerGroup", "G"),
   ("QualificationLevel", "1")]

/-- A worker whose `AvailableSlots` cell lists phase 1 twice, with
`MaxLoadPerPhase:2`. -/
def exDupSlotWorker : Row :=
  [("WorkerID", "W1"), ("WorkerName", "W"), ("Skills", "python"),
   ("AvailableSlots", "1,1"), ("MaxLoadPerPhase", "2"), ("WorkerGroup", "G"),
   ("QualificationLevel", "1")]

/-- The task contrasting duplicated-slot capacity with set-based capacity:
prefers phase 1 with duration 3. -/
def exDur3Task : Row :=
  [("TaskID", "T1"), ("TaskName", "Task"), ("Category", "Cat"), ("Duration", "3"),
   ("RequiredSkills", "python"), ("PreferredPhases", "[1]"), ("MaxConcurrent", "1")]

/-- The client of the reference-integrity scenario:
`RequestedTaskIDs:"T1,T9"`. -/
def exRefClient : Row :=
  [("ClientID", "C1"), ("ClientName", "C"), ("PriorityLevel", "3"),
   ("RequestedTaskIDs", "T1,T9"), ("GroupTag", "G"), ("AttributesJSON", "")]

/-- A client whose `RequestedTaskIDs` has a trailing comma, producing an
empty trimmed token. -/
def exTrailClient : Row :=
  [("ClientID", "C1"), ("ClientName", "C"), ("PriorityLevel", "3"),
   ("RequestedTaskIDs", "T1,"), ("GroupTag", "G"), ("AttributesJSON", "")]

/-- The tasks dataset `[{TaskID:"T1"}]` of the reference scenarios, fully
populated. -/
def exT1Task : Row :=
  [("TaskID", "T1"), ("TaskName", "Task"), ("Category", "Cat"), ("Duration", "1"),
   ("RequiredSkills", "python"), ("PreferredPhases", "[1]"), ("MaxConcurrent", "1")]

/-- A task whose `RequiredSkills` has doubled and trailing commas. -/
def exCommaSkillTask : Row :=
  [("TaskID", "T1"), ("TaskName", "Task"), ("Category", "Cat"), ("Duration", "1"),
   ("RequiredSkills", "python,,"), ("PreferredPhases", "[1]"), ("MaxConcurrent", "1")]

/-- The clients dataset of the uniqueness scenario:
`[{ClientID:"C1"},{ClientID:"C1"},{ClientID:"C2"}]`. -/
def exDupClients : List Row :=
  [[("ClientID", "C1")], [("ClientID", "C1")], [("ClientID", "C2")]]

/-! ### The claims -/

/-- C1: the three `PreferredPhases` surface syntaxes are NOT equivalent
under the code.  `"[1,2,3]"` normalizes to `{1,2,3}` with no error, but the
range and comma branches test the regex literals `/^\\d+-\\d+$/` and
`/^\\d+(?:,\\d+)*$/`, whose `\\` matches a literal backslash: `"1-3"` and
`"1,2,3"` fall through to the catch-all branch, normalize to `[]`, and are
reported as malformed — contradicting the adjacent source comments
("Handle range format like 1-3", "Handle comma-separated numbers like
2,4,5") and the claim.  The malformed half of the claim does hold:
`"1,,3"` and `"x-y"` each produce exactly one structural error. -/
theorem claim_C1_phase_syntax :
    parsePreferredPhases "[1,2,3]" = [some 1, some 2, some 3]
    ∧ validateSingleDataset [exTask "[1,2,3]"] .tasks = []
    ∧ parsePreferredPhases "1-3" = []
    ∧ validateSingleDataset [exTask "1-3"] .tasks
        = ["Row 1 (TaskID: T1): Malformed PreferredPhases. Use \"1-3\" or \"2,4,5\" format."]
    ∧ parsePreferredPhases "1,2,3" = []
    ∧ validateSingleDataset [exTask "1,2,3"] .tasks
        = ["Row 1 (TaskID: T1): Malformed PreferredPhases. Use \"1-3\" or \"2,4,5\" format."]
    ∧ validateSingleDataset [exTask "1,,3"] .tasks
        = ["Row 1 (TaskID: T1): Malformed PreferredPhases. Use \"1-3\" or \"2,4,5\" format."]
    ∧ validateSingleDataset [exTask "x-y"] .tasks
        = ["Row 1 (TaskID: T1): Malformed PreferredPhases. Use \"1-3\" or \"2,4,5\" format."] := by
  refine ⟨by decide, by decide, by decide, by decide, by decide, by decide, by decide, by decide⟩

/-- C2: the capacity-saturation scenario of the claim fails on the code:
with `PreferredPhases:"1"` the phase cell is rejected by the
backslash-regex bug, `parsePreferredPhases "1" = []`, so no phase is
saturated and no error is emitted — the claim expects a phase-1 error
reporting demand 5 > capacity 2.  With the working bracketed syntax
`"[1]"` the check behaves exactly as the claim describes, including the
disappearance of the error at Duration 2. -/
theorem claim_C2_saturation_scenario :
    validatePhaseSlotSaturation [exSatTask "1" "5"] [exSatWorker] = []
    ∧ parsePreferredPhases "1" = []
    ∧ validatePhaseSlotSaturation [exSatTask "[1]" "5"] [exSatWorker]
        = ["Phase 1: Total task duration (5) exceeds available worker capacity (2)."]
    ∧ validatePhaseSlotSaturation [exSatTask "[1]" "2"] [exSatWorker] = [] := by
  refine ⟨by decide, by decide, by decide, by decide⟩

/-- C3 counterexample: one worker whose `Skills` cell lists `python` twice
defeats the claim.  Only one distinct worker holds `python` and the task
has `MaxConcurrent = 2`, so the claim's iff requires a capacity error, but
the code counts skill-token occurrences (2) and emits none. -/
theorem claim_C3_counterexample :
    validateMaxConcurrencyFeasibility [exConcTask] [exDupSkillWorker] = []
    ∧ workersHoldingSkill [exDupSkillWorker] "python" = 1
    ∧ jsParseInt (getS exConcTask "MaxConcurrent") = some 2 := by
  refine ⟨by decide, by decide, by decide⟩

/-- C3 as amended: a task is flagged with exactly one capacity error iff
its `RequiredSkills` is non-empty, its `MaxConcurrent` parses to `k > 0`,
and some required-skill token occurs fewer than `k` times across all
workers' normalized `Skills` token lists (occurrences counted with
multiplicity, not distinct workers).  The claim's concrete scenario holds:
one `python` worker flags the `MaxConcurrent:2` task, a second removes the
error. -/
theorem claim_C3_amended :
    (∀ tasks workers,
      validateMaxConcurrencyFeasibility tasks workers = maxConcSpec tasks workers)
    ∧ validateMaxConcurrencyFeasibility [exConcTask] [exPyWorker "W1"]
        = ["Row 1 (TaskID: T1): MaxConcurrent (2) might not be feasible for all required skills. Not enough qualified workers."]
    ∧ validateMaxConcurrencyFeasibility [exConcTask] [exPyWorker "W1", exPyWorker "W2"] = [] := by
  refine ⟨validateMaxConcurrencyFeasibility_eq, by decide, by decide⟩

/-- C4 counterexample: a worker with an empty `AvailableSlots` cell and
`MaxLoadPerPhase = 2` receives no overload error, because the check is
guarded by the truthiness of `AvailableSlots` — the claim requires the
overload rule to apply to every worker, including one with empty
`AvailableSlots`. -/
theorem claim_C4_counterexample :
    validateOverloadedWorkers [exEmptySlotsWorker] = []
    ∧ getS exEmptySlotsWorker "AvailableSlots" = ""
    ∧ jsParseInt (getS exEmptySlotsWorker "MaxLoadPerPhase") = some 2 := by
  refine ⟨by decide, by decide, by decide⟩

/-- C4 as amended: among workers with a present, non-empty `AvailableSlots`
cell and a defined `MaxLoadPerPhase` parsing to `m`, exactly those with
fewer numeric slot tokens than `m` yield exactly one overload error each,
in row order; all other workers — including every worker whose
`AvailableSlots` is empty or absent — yield none. -/
theorem claim_C4_amended :
    (∀ workers, validateOverloadedWorkers workers = overloadSpec workers)
    ∧ validateOverloadedWorkers [exShortWorker]
        = ["Row 1 (WorkerID: W1): Worker is overloaded. Available slots (1) are less than MaxLoadPerPhase (2)."]
    ∧ validateOverloadedWorkers [exPyWorker "W1"] = [] := by
  refine ⟨validateOverloadedWorkers_eq, by decide, by decide⟩

/-- C5 counterexample: `RequestedTaskIDs:"T1,"` produces the trimmed token
`""`, which equals no task's `TaskID`, yet no reference error is emitted —
the claim's "every trimmed token that equals no task's TaskID produces
exactly one reference error" fails for empty tokens. -/
theorem claim_C5_counterexample :
    validateClientTaskRelationship [exTrailClient] [exT1Task] = []
    ∧ requestedTokens exTrailClient = ["T1", ""]
    ∧ (taskIdsOf [exT1Task]).contains "" = false := by
  refine ⟨by decide, by decide, by decide⟩

/-- C5 as amended: every NON-EMPTY trimmed token of a client's
`RequestedTaskIDs` that equals no task's `TaskID` produces exactly one
reference error attributed to that client row, and matching or empty
tokens produce none; the scenario with tasks `[{TaskID:"T1"}]` and
`RequestedTaskIDs:"T1,T9"` yields exactly one error naming `"T9"`. -/
theorem claim_C5_amended :
    (∀ clients tasks,
      validateClientTaskRelationship clients tasks = clientRefSpec clients tasks)
    ∧ validateClientTaskRelationship [exRefClient] [exT1Task]
        = ["Row 1 (ClientID: C1): Requested Task ID 'T9' not found in tasks data."] := by
  refine ⟨validateClientTaskRelationship_eq, by decide⟩

/-- C6: primary-key uniqueness reporting.  The deduplicated list in the
single duplicate-key error contains exactly the key values occurring more
than once, each listed once; and on
`[{ClientID:"C1"},{ClientID:"C1"},{ClientID:"C2"}]` exactly one structural
error reports the duplicate `"C1"`. -/
theorem claim_C6_duplicate_keys :
    (∀ data t v,
      v ∈ dedupKeepFirst (duplicateIds data t)
        ↔ 2 ≤ (data.map fun row => getField row (idFieldName t)).count (some v))
    ∧ (∀ data t, (dedupKeepFirst (duplicateIds data t)).Nodup)
    ∧ (∀ data t,
        duplicateIdErrors data t
          = if duplicateIds data t = [] then []
            else ["Duplicate IDs found for " ++ dtName t ++ ": "
                    ++ String.intercalate ", " (dedupKeepFirst (duplicateIds data t))])
    ∧ (validateSingleDataset exDupClients .clients).count
        "Duplicate IDs found for clients: C1" = 1 := by
  refine ⟨?_, ?_, ?_, by decide⟩
  · intro data t v
    rw [dedupKeepFirst_mem]
    exact duplicateIds_mem_iff data t v
  · intro data t
    exact dedupKeepFirst_nodup _
  · intro data t
    unfold duplicateIdErrors
    cases h : duplicateIds data t <;> simp [h]

/-- C7: for any snapshot, each dataset key's error sequence is the
schema-stage errors, then the cross-reference errors, then the capacity
errors; and within each row-attributed check the errors are an in-order
traversal of the rows (`flatMap`/`filter`-`map` over the enumerated row
list). -/
theorem claim_C7_ordering :
    (∀ c w t,
      (validateAll c w t).clients
          = validateSingleDataset c .clients ++ crossClientErrors c t
      ∧ (validateAll c w t).workers
          = validateSingleDataset w .workers ++ validateOverloadedWorkers w
      ∧ (validateAll c w t).tasks
          = validateSingleDataset t .tasks ++ crossTaskErrors t w
              ++ validatePhaseSlotSaturation t w ++ validateMaxConcurrencyFeasibility t w)
    ∧ (∀ data t,
        validateSingleDataset data t
          = missingColumnsErrors data t ++ duplicateIdErrors data t
              ++ data.enum.flatMap fun p => rowErrors t p.1 p.2)
    ∧ (∀ clients tasks,
        validateClientTaskRelationship clients tasks = clientRefSpec clients tasks)
    ∧ (∀ tasks workers,
        validateTaskWorkerRelationship tasks workers = taskSkillRefSpec tasks workers)
    ∧ (∀ workers, validateOverloadedWorkers workers = overloadSpec workers)
    ∧ (∀ tasks workers,
        validateMaxConcurrencyFeasibility tasks workers = maxConcSpec tasks workers) :=
  ⟨fun c w t =>
    ⟨validateAll_clients_stages c w t, validateAll_workers_stages c w t,
      validateAll_tasks_stages c w t⟩,
   validateSingleDataset_stages, validateClientTaskRelationship_eq,
   validateTaskWorkerRelationship_eq, validateOverloadedWorkers_eq,
   validateMaxConcurrencyFeasibility_eq⟩

/-- C8: the validation pass is a deterministic pure function of the three
dataset snapshots: two runs on equal snapshots produce equal reports. -/
theorem claim_C8_determinism (c₁ c₂ w₁ w₂ t₁ t₂ : List Row)
    (hc : c₁ = c₂) (hw : w₁ = w₂) (ht : t₁ = t₂) :
    validateAll c₁ w₁ t₁ = validateAll c₂ w₂ t₂ := by
  rw [hc, hw, ht]

/-- Witness for C8 at a concrete snapshot. -/
theorem claim_C8_determinism_witness :
    validateAll [exRefClient] [exSatWorker] [exT1Task]
      = validateAll [exRefClient] [exSatWorker] [exT1Task] :=
  claim_C8_determinism [exRefClient] [exRefClient] [exSatWorker] [exSatWorker]
    [exT1Task] [exT1Task] rfl rfl rfl

/-- C9: the phase-capacity dictionary is computed without deduplicating a
worker's slot tokens — each of the `n` occurrences of a phase adds the
worker's `MaxLoadPerPhase` — and this can suppress a saturation error a
set-based capacity would report: with slots `"1,1"` and load 2 the code
capacity is 4 and no error is emitted for a demand of 3, while the
set-based capacity is 2 < 3. -/
theorem claim_C9_slot_multiplicity :
    (∀ workers p,
      phaseCapacities workers (some p)
        = (workers.map fun w =>
            ((workerSlotNums w).count p : Int) * workerMaxLoadOrZero w).sum)
    ∧ phaseCapacities [exDupSlotWorker] (some 1) = 4
    ∧ setBasedPhaseCapacity [exDupSlotWorker] 1 = 2
    ∧ taskPhaseList exDur3Task = [some 1]
    ∧ jsParseInt (getS exDur3Task "Duration") = some 3
    ∧ validatePhaseSlotSaturation [exDur3Task] [exDupSlotWorker] = []
    ∧ setBasedPhaseCapacity [exDupSlotWorker] 1 < 3 := by
  refine ⟨phaseCapacities_count, by decide, by decide, by decide, by decide,
    by decide, by decide⟩

/-- C10: both cross-reference checks skip tokens that trim to the empty
string: the full error lists equal the ones computed from the non-empty
trimmed tokens only, so an empty token never produces a reference error;
concretely, `RequiredSkills:"python,,"` against a `python` worker yields
none. -/
theorem claim_C10_empty_tokens :
    (∀ clients tasks,
      validateClientTaskRelationship clients tasks = clientRefSpec clients tasks)
    ∧ (∀ tasks workers,
      validateTaskWorkerRelationship tasks workers = taskSkillRefSpec tasks workers)
    ∧ validateTaskWorkerRelationship [exCommaSkillTask] [exPyWorker "W1"] = [] := by
  refine ⟨validateClientTaskRelationship_eq, validateTaskWorkerRelationship_eq, by decide⟩

end DataAlchemist
